import Mathlib

/-!
# Verification of the opening-hours evaluation engine

Shallow embedding of the `opening-hours-rs` repository:

* `src/extended_time.rs` — the `ExtendedTime` clock-time model (`u8` hour that may
  exceed 23, `u8` minute), its constructors and signed-offset arithmetic;
* `src/opening-hours-syntax/src/rules/day.rs` — `DateOffset::apply`, the
  day-shift plus weekday-snap adjustment of a calendar date;
* `src/time_domain.rs` — rule composition (`RuleSequence::schedule_at`,
  `TimeDomain::schedule_at`), the `TimeDomainIterator` state machine and the
  derived queries `next_change`, `state` and `intervals`.

Conventions of the embedding:

* A `chrono::NaiveDate` is the signed number of days since 1970-01-01 (`Int`).
  Adding a `chrono::Duration::days(n)` is integer addition.  1970-01-01 is a
  Thursday and `chrono` numbers weekdays from Monday = 0, so the weekday of a
  day number `d` is `(d + 3) % 7`.  The bound test `date.year() <= 9999` is the
  equivalent test `d ≤ maxDate` where `maxDate` is the day number of
  9999-12-31 (the year function is monotone in the day number).
* A `chrono::NaiveTime` is its number of minutes from midnight (the engine
  never inspects seconds: it converts times with `from_hms_opt(h, m, 0)` and
  reads back only hour and minute).  A `NaiveDateTime` is a (date, time) pair
  ordered lexicographically.
* Rust `u8`/`u16`/`i16` arithmetic is `Nat`/`Int` arithmetic with explicit
  wrapping (`wrap16`) where the source can overflow, matching release-mode
  two's-complement semantics.  A Rust `panic!`/`expect`/`unwrap` is an explicit
  `panic`-like result constructor (or `Option.none` for helpers).
-/

namespace OpeningHours

/-! ## Time-of-day model: `src/extended_time.rs` -/

/-- `ExtendedTime` (src/extended_time.rs): hour and minute are Rust `u8`
fields, so both are `Nat` values below 256 wherever a real `u8` produced
them. -/
structure ExtendedTime where
  hour : Nat
  minute : Nat
  deriving DecidableEq, Repr

/-- Outcome of a Rust function returning `Result<T, TryFromIntError>` whose
body may additionally panic: `ok` a value, `err` a recoverable
`TryFromIntError`, or `panicked` for an `unwrap`/`expect`/`panic!` abort. -/
inductive RustResult (α : Type) where
  | ok (a : α)
  | err
  | panicked
  deriving DecidableEq, Repr

/-- Two's-complement wrap of an integer into the `i16` range, the release-mode
meaning of `i16` addition in the source. -/
def wrap16 (x : Int) : Int := (x + 32768) % 65536 - 32768

/-- `ExtendedTime::new` (src/extended_time.rs:22-28): panics when
`minute >= 60`, modelled as `none`. -/
def ExtendedTime.new (hour minute : Nat) : Option ExtendedTime :=
  if minute ≥ 60 then none else some ⟨hour, minute⟩

/-- `ExtendedTime::mins_from_midnight` (src/extended_time.rs:56-58):
`u16::from(minute) + 60 * u16::from(hour)`; no wrapping is needed because a
`u8` pair gives at most `255 + 60 * 255 = 15555 < 2^16`. -/
def ExtendedTime.mins_from_midnight (t : ExtendedTime) : Nat :=
  t.minute + 60 * t.hour

/-- `ExtendedTime::from_mins_from_midnight` (src/extended_time.rs:50-54):
`hour = (minute / 60).try_into().unwrap()` panics (modelled as `none`) when the
quotient exceeds `u8::MAX`; the `expect` on `minute % 60` can never fire since
the remainder is below 60. -/
def ExtendedTime.from_mins_from_midnight (minute : Nat) : Option ExtendedTime :=
  if minute / 60 ≤ 255 then some ⟨minute / 60, minute % 60⟩ else none

/-- `ExtendedTime::add_minutes` (src/extended_time.rs:38-41):
`self.mins_from_midnight() as i16 + minutes` wraps in `i16`; the
`try_into::<u16>()?` fails exactly on a negative sum (an `i16` always fits the
upper range of `u16`); the final `from_mins_from_midnight` may panic. -/
def ExtendedTime.add_minutes (t : ExtendedTime) (minutes : Int) : RustResult ExtendedTime :=
  let as_minutes : Int := wrap16 ((t.mins_from_midnight : Int) + minutes)
  if as_minutes < 0 then .err
  else
    match ExtendedTime.from_mins_from_midnight as_minutes.toNat with
    | some v => .ok v
    | none => .panicked

/-- `ExtendedTime::add_hours` (src/extended_time.rs:43-48):
`(i16::from(self.hour) + hours).try_into::<u8>()?` fails when the (wrapped) sum
is outside `0..=255`; the minute field is copied unchanged. -/
def ExtendedTime.add_hours (t : ExtendedTime) (hours : Int) : RustResult ExtendedTime :=
  let h : Int := wrap16 ((t.hour : Int) + hours)
  if 0 ≤ h ∧ h ≤ 255 then .ok ⟨h.toNat, t.minute⟩ else .err

/-- `From<NaiveTime> for ExtendedTime` (src/extended_time.rs:69-76): reads the
hour and minute of a wall-clock time; here the wall-clock time is its count
`n < 1440` of minutes from midnight, so hour `= n / 60` and minute
`= n % 60`. -/
def ExtendedTime.fromNaiveTime (n : Nat) : ExtendedTime :=
  ⟨n / 60, n % 60⟩

/-! ## Calendar dates and `DateOffset`: `opening-hours-syntax/src/rules/day.rs` -/

/- A `chrono::NaiveDate` is embedded as its signed number of days since
1970-01-01, written `Int` throughout. -/

/-- `chrono`'s weekday cast `date.weekday() as i64`: Monday = 0 … Sunday = 6.
1970-01-01 (day 0) is a Thursday, hence the `+ 3`. -/
def NaiveDate.weekday (d : Int) : Int := (d + 3) % 7

/-- `chrono::Weekday`. -/
inductive Weekday where
  | Mon | Tue | Wed | Thu | Fri | Sat | Sun
  deriving DecidableEq, Repr

/-- The cast `Weekday as i64` of chrono (Monday = 0). -/
def Weekday.toInt : Weekday → Int
  | .Mon => 0 | .Tue => 1 | .Wed => 2 | .Thu => 3 | .Fri => 4 | .Sat => 5 | .Sun => 6

/-- `WeekDayOffset` (day.rs:165-170). -/
inductive WeekDayOffset where
  | None
  | Next (w : Weekday)
  | Prev (w : Weekday)
  deriving Repr

/-- `DateOffset` (day.rs:128-132). -/
structure DateOffset where
  wday_offset : WeekDayOffset
  day_offset : Int

/-- `DateOffset::apply` (day.rs:134-153), translated literally:
shift by `day_offset` days, then
`Prev target`: subtract `(7 + target - weekday) % 7` days;
`Next target`: add `(7 + weekday - target) % 7` days. -/
def DateOffset.apply (o : DateOffset) (date : Int) : Int :=
  let date := date + o.day_offset
  match o.wday_offset with
  | .None => date
  | .Prev target => date - (7 + target.toInt - NaiveDate.weekday date) % 7
  | .Next target => date + (7 + NaiveDate.weekday date - target.toInt) % 7

/-! ## Per-day schedules: `src/schedule.rs` is not part of the sources at hand,
so the schedule algebra is modelled from the spec (§3, §4.3). -/

/-- `RuleKind` (src/time_domain.rs:280-285). -/
inductive RuleKind where
  | Open
  | Closed
  | Unknown
  deriving DecidableEq, Repr

/-- `RuleOperator` (src/time_domain.rs:287-292). -/
inductive RuleOperator where
  | Normal
  | Additional
  | Fallback
  deriving DecidableEq, Repr

/-- Modelled from the spec: a `TimeRange` of `src/schedule.rs` (missing from
the sources) — "an ordered set of TimeSpan entries (time-of-day range, state,
sorted list of annotation strings)" (§3).  The time-of-day bounds are minute
counts from midnight (an `ExtendedTime` collapsed to
`mins_from_midnight`). -/
structure TimeRange where
  start : Nat
  stop : Nat
  kind : RuleKind
  comments : List String
  deriving DecidableEq, Repr

/-- Modelled from the spec: the `Schedule` of `src/schedule.rs` (missing from
the sources) — a sorted, non-overlapping list of time ranges for one day
(§3). -/
abbrev Schedule := List TimeRange

/-- Modelled from the spec: `Schedule::empty` — a schedule with no ranges. -/
def Schedule.empty : Schedule := []

/-- Modelled from the spec: `Schedule::from_ranges` (missing from the
sources) — tag every given time-of-day range with the same state and
annotation list (§4.3 `fromSpans`). -/
def Schedule.from_ranges (ranges : List (Nat × Nat)) (kind : RuleKind)
    (comments : List String) : Schedule :=
  ranges.map fun r => ⟨r.1, r.2, kind, comments⟩

/-- Insert a string into a sorted, duplicate-free list, keeping it sorted and
duplicate-free. -/
def insertString (x : String) : List String → List String
  | [] => [x]
  | y :: ys =>
    match compare x y with
    | .lt => x :: y :: ys
    | .eq => y :: ys
    | .gt => y :: insertString x ys

/-- Modelled from the spec: the sorted, de-duplicated union of two annotation
lists (§4.3, §9 "stable sort, de-duplicated union"). -/
def mergeComments (a b : List String) : List String :=
  (a ++ b).foldr insertString []

/-- Modelled from the spec: the state of a sub-interval covered by both inputs
of `addition` — "Open if either input is Open, else Closed if either is
Closed, else Unknown" (§4.3). -/
def combineKind : RuleKind → RuleKind → RuleKind
  | .Open, _ => .Open
  | _, .Open => .Open
  | .Closed, _ => .Closed
  | _, .Closed => .Closed
  | _, _ => .Unknown

/-- The value a schedule assigns to the instant `t`: the state and annotations
of the range containing `t`, when one exists. -/
def Schedule.valueAt (s : Schedule) (t : Nat) : Option (RuleKind × List String) :=
  (s.find? fun tr => tr.start ≤ t && t < tr.stop).map fun tr => (tr.kind, tr.comments)

/-- Insert a number into a sorted, duplicate-free list, keeping it sorted and
duplicate-free. -/
def insertNat (x : Nat) : List Nat → List Nat
  | [] => [x]
  | y :: ys =>
    if x = y then y :: ys
    else if x < y then x :: y :: ys
    else y :: insertNat x ys

/-- Merge adjacent ranges meeting end-to-start with identical state and
annotation list (§4.3 renormalization: "adjacent intervals with identical
state and annotation set are merged"). -/
def coalesce : List TimeRange → List TimeRange
  | [] => []
  | tr1 :: rest =>
    match coalesce rest with
    | [] => [tr1]
    | tr2 :: rest2 =>
      if tr1.stop = tr2.start ∧ tr1.kind = tr2.kind ∧ tr1.comments = tr2.comments then
        ⟨tr1.start, tr2.stop, tr1.kind, tr1.comments⟩ :: rest2
      else
        tr1 :: tr2 :: rest2

/-- Modelled from the spec: `Schedule::addition` of `src/schedule.rs` (missing
from the sources), per §4.3 — split both inputs at every boundary point of
either; a sub-interval covered by one input keeps its state and annotations, a
sub-interval covered by both combines states with `combineKind` and takes the
union of annotations; the result is renormalized with `coalesce`. -/
def Schedule.addition (self other : Schedule) : Schedule :=
  let bounds := ((self ++ other).flatMap fun tr => [tr.start, tr.stop]).foldr insertNat []
  let segs := bounds.zip bounds.tail
  let pieces := segs.filterMap fun pq =>
    match self.valueAt pq.1, other.valueAt pq.1 with
    | some kc1, some kc2 =>
        some ⟨pq.1, pq.2, combineKind kc1.1 kc2.1, mergeComments kc1.2 kc2.2⟩
    | some kc, none => some ⟨pq.1, pq.2, kc.1, kc.2⟩
    | none, some kc => some ⟨pq.1, pq.2, kc.1, kc.2⟩
    | none, none => none
  coalesce pieces

/-- One day holds 1440 minutes; the filled schedule covers `[0, 1440)`. -/
def minutesPerDay : Nat := 1440

/-- Gap filler of `into_iter_filled`: walk the (sorted) ranges from the cursor
`cur`, inserting an Unknown-state, empty-annotation range into every gap,
including after the last range up to the end of the day (§4.3 `filled`). -/
def fillGaps (cur : Nat) : List TimeRange → List TimeRange
  | [] => if cur < minutesPerDay then [⟨cur, minutesPerDay, .Unknown, []⟩] else []
  | tr :: rest =>
    if cur < tr.start then ⟨cur, tr.start, .Unknown, []⟩ :: tr :: fillGaps tr.stop rest
    else tr :: fillGaps tr.stop rest

/-- Modelled from the spec: `Schedule::into_iter_filled` of `src/schedule.rs`
(missing from the sources) — the contiguous cover of the full day obtained by
inserting Unknown-state gaps before, between and after the explicit ranges
(§4.3 `filled`). -/
def Schedule.into_iter_filled (s : Schedule) : List TimeRange :=
  fillGaps 0 s

/-! ## Rules and composition: `src/time_domain.rs` -/

/-- `DaySelector` (from `src/day_selector.rs`, missing from the sources).
Modelled from the spec: the engine only consumes it through its date-matching
predicate `matches(date) -> bool` (§4.2), so it is embedded as that
predicate. -/
structure DaySelector where
  filter : Int → Bool

/-- `TimeSelector` (from `src/time_selector.rs`, missing from the sources).
Modelled from the spec: "given a date, returns the list of time-of-day
intervals … contributed today, and separately the portion attributable as
yesterday overflow when queried for the prior date" (§6), embedded as those
two functions, intervals as minute-count pairs. -/
structure TimeSelector where
  intervals_at : Int → List (Nat × Nat)
  intervals_at_next_day : Int → List (Nat × Nat)

/-- `RuleSequence` (src/time_domain.rs:231-238). -/
structure RuleSequence where
  day_selector : DaySelector
  time_selector : TimeSelector
  kind : RuleKind
  operator : RuleOperator
  comments : List String

/-- `TimeDomain` (src/time_domain.rs:55-58). -/
structure TimeDomain where
  rules : List RuleSequence

/-- `RuleSequence::schedule_at` (src/time_domain.rs:240-276): the "today"
contribution when the day selector matches `date`, the "yesterday overflow"
contribution when it matches `date - 1`, merged with `addition` when both are
present, otherwise `Option::or`. -/
def RuleSequence.schedule_at (rs : RuleSequence) (date : Int) : Option Schedule :=
  let today :=
    if rs.day_selector.filter date then
      some (Schedule.from_ranges (rs.time_selector.intervals_at date) rs.kind rs.comments)
    else none
  let yesterday :=
    let date := date - 1
    if rs.day_selector.filter date then
      some (Schedule.from_ranges (rs.time_selector.intervals_at_next_day date) rs.kind rs.comments)
    else none
  match today, yesterday with
  | some sched_1, some sched_2 => some (sched_1.addition sched_2)
  | today, yesterday => today.or yesterday

/-- The fold step of `TimeDomain::schedule_at` (src/time_domain.rs:72-83):
`Normal` replaces the accumulator by the current contribution, `Additional`
merges with `addition` when both are present (otherwise `Option::or`),
`Fallback` keeps the accumulator when present (otherwise the
contribution). -/
def TimeDomain.schedule_at_step (date : Int) (prev_eval : Option Schedule)
    (rules_seq : RuleSequence) : Option Schedule :=
  let curr_eval := rules_seq.schedule_at date
  match rules_seq.operator with
  | .Normal => curr_eval
  | .Additional =>
    match prev_eval, curr_eval with
    | some prev, some curr => some (prev.addition curr)
    | prev, curr => prev.or curr
  | .Fallback => prev_eval.or curr_eval

/-- `TimeDomain::schedule_at` (src/time_domain.rs:69-85): fold the ordered
rule list starting from `None` and default to the empty schedule. -/
def TimeDomain.schedule_at (td : TimeDomain) (date : Int) : Schedule :=
  (td.rules.foldl (TimeDomain.schedule_at_step date) none).getD Schedule.empty

/-! ## The time-domain iterator: `src/time_domain.rs:134-227` -/

/-- The day number of 9999-12-31, so that `d ≤ maxDate` is exactly the source
test `date.year() <= 9999` (the year is monotone in the day number).
8030 years of 365 days plus 1947 leap days separate 1970-01-01 from
10000-01-01. -/
def maxDate : Int := 2932896

/-- `chrono::NaiveDateTime`: a date paired with a time of day in minutes from
midnight. -/
structure NaiveDateTime where
  date : Int
  time : Nat
  deriving DecidableEq, Repr

/-- The `Ord` comparison of `NaiveDateTime`: lexicographic on (date, time). -/
def NaiveDateTime.lt (a b : NaiveDateTime) : Bool :=
  a.date < b.date || (a.date = b.date && a.time < b.time)

/-- `std::cmp::min` over `NaiveDateTime` (returns the first argument on
ties). -/
def NaiveDateTime.min (a b : NaiveDateTime) : NaiveDateTime :=
  if NaiveDateTime.lt b a then b else a

/-- `std::cmp::max` over `NaiveDateTime`. -/
def NaiveDateTime.max (a b : NaiveDateTime) : NaiveDateTime :=
  if NaiveDateTime.lt b a then a else b

/-- `DateTimeRange` (src/time_domain.rs:20-26): the `range` field split into
its `start` and `stop` instants. -/
structure DateTimeRange where
  start : NaiveDateTime
  stop : NaiveDateTime
  kind : RuleKind
  comments : List String
  deriving DecidableEq, Repr

/-- `TimeDomainIterator` (src/time_domain.rs:136-140): the borrowed time
domain, the cursor date, and the remaining (peekable) filled schedule of the
cursor date. -/
structure IterState where
  time_domain : TimeDomain
  curr_date : Int
  curr_schedule : List TimeRange

/-- `TryInto<NaiveTime> for ExtendedTime` (src/extended_time.rs:61-67) on a
minute count: defined only below 24:00. -/
def tryIntoNaiveTime (t : Nat) : Option Nat :=
  if t < minutesPerDay then some t else none

/-- The `Range::contains` test of the skip loop in `TimeDomainIterator::new`
(src/time_domain.rs:156-162): `start <= t < end`. -/
def timeRangeContains (tr : TimeRange) (t : Nat) : Bool :=
  tr.start ≤ t && t < tr.stop

/-- `TimeDomainIterator::new` (src/time_domain.rs:143-169): take the filled
schedule of the start date (empty beyond the year-9999 bound) and drop leading
ranges that do not contain the start time. -/
def IterState.new (td : TimeDomain) (start_datetime : NaiveDateTime) : IterState :=
  let start_date := start_datetime.date
  let start_time := start_datetime.time
  let curr_schedule :=
    if start_date ≤ maxDate then (td.schedule_at start_date).into_iter_filled else []
  { time_domain := td
    curr_date := start_date
    curr_schedule := curr_schedule.dropWhile fun tr => !timeRangeContains tr start_time }

/-- `TimeDomainIterator::consume_until_next_kind` (src/time_domain.rs:171-187):
drop schedule entries while the peeked entry has the current kind; whenever the
day's schedule runs out, advance the cursor date and recompute its filled
schedule, unless the date bound is exceeded (then the schedule stays empty and
the loop stops at the next check). -/
def IterState.consume_until_next_kind (curr_kind : RuleKind) (s : IterState) : IterState :=
  match hsch : s.curr_schedule with
  | [] => s
  | tr :: rest =>
    if tr.kind = curr_kind then
      if rest.isEmpty then
        if hbound : s.curr_date + 1 ≤ maxDate then
          IterState.consume_until_next_kind curr_kind
            { s with
              curr_date := s.curr_date + 1
              curr_schedule := (s.time_domain.schedule_at (s.curr_date + 1)).into_iter_filled }
        else
          -- The source loops back here with an empty (exhausted) schedule and
          -- the next `peek` immediately stops the loop: the recursive call on
          -- this state returns it unchanged, so it is returned directly.
          { s with curr_date := s.curr_date + 1, curr_schedule := [] }
      else
        IterState.consume_until_next_kind curr_kind { s with curr_schedule := rest }
    else s
  termination_by ((maxDate + 2 - s.curr_date).toNat, s.curr_schedule.length)
  decreasing_by
  all_goals simp_wf
  · apply Prod.Lex.left
    omega
  · apply Prod.Lex.right
    rw [hsch]
    simp

/-- The outcome of one `next()` call on an iterator: a yielded item together
with the successor state, the end of the stream, or a panic (the two `expect`
calls on time conversion in src/time_domain.rs:193-216). -/
inductive Step where
  | panic
  | done
  | item (r : DateTimeRange) (s : IterState)

/-- `Iterator::next for TimeDomainIterator` (src/time_domain.rs:190-227): peek
the current range; its start (converted to a wall-clock time) on the cursor
date is the emitted start; consume the run of entries of the same kind; the
emitted end is the start of the now-peeked entry (or midnight, `00:00`, of the
cursor date after exhaustion) on the new cursor date; the emitted kind and
comments are those of the first peeked range. -/
def IterState.next (s : IterState) : Step :=
  match s.curr_schedule with
  | [] => .done
  | curr_tr :: _ =>
    match tryIntoNaiveTime curr_tr.start with
    | none => .panic
    | some start_time =>
      let start : NaiveDateTime := ⟨s.curr_date, start_time⟩
      let s2 := IterState.consume_until_next_kind curr_tr.kind s
      let end_time : Nat :=
        match s2.curr_schedule with
        | tr :: _ => tr.start
        | [] => 0
      match tryIntoNaiveTime end_time with
      | none => .panic
      | some et => .item ⟨start, ⟨s2.curr_date, et⟩, curr_tr.kind, curr_tr.comments⟩ s2

/-- `TimeDomain::iter_from` (src/time_domain.rs:87-89). -/
def TimeDomain.iter_from (td : TimeDomain) (t : NaiveDateTime) : IterState :=
  IterState.new td t

/-- `TimeDomain::next_change` (src/time_domain.rs:93-98): the end of the first
produced interval, or the queried instant when the stream is immediately
empty; `none` only when the first `next()` panics. -/
def TimeDomain.next_change (td : TimeDomain) (current_time : NaiveDateTime) :
    Option NaiveDateTime :=
  match (td.iter_from current_time).next with
  | .item r _ => some r.stop
  | .done => some current_time
  | .panic => none

/-- `TimeDomain::state` (src/time_domain.rs:100-105): the kind of the first
produced interval, or `Unknown` when the stream is immediately empty; `none`
only when the first `next()` panics. -/
def TimeDomain.state (td : TimeDomain) (current_time : NaiveDateTime) :
    Option RuleKind :=
  match (td.iter_from current_time).next with
  | .item r _ => some r.kind
  | .done => some .Unknown
  | .panic => none

/-- One step of the iterator returned by `TimeDomain::intervals`
(src/time_domain.rs:119-131): `take_while` the underlying interval starts
before `to`, then clip the interval to `[from, to]` with `max`/`min`. -/
def TimeDomain.intervalsStep (fromT toT : NaiveDateTime) (s : IterState) : Step :=
  match s.next with
  | .item dtr s' =>
    if NaiveDateTime.lt dtr.start toT then
      .item
        ⟨NaiveDateTime.max dtr.start fromT, NaiveDateTime.min dtr.stop toT,
          dtr.kind, dtr.comments⟩ s'
    else .done
  | x => x

/-- The range yielded by a `Step`, when it yields one. -/
def Step.itemRange : Step → Option DateTimeRange
  | .item r _ => some r
  | _ => none

/-! ## Concrete sample domains used to instantiate the theorems -/

/-- A rule matching every date, `Normal`, open 08:00–10:00, no comments. -/
def morningRule : RuleSequence :=
  { day_selector := ⟨fun _ => true⟩
    time_selector := ⟨fun _ => [(480, 600)], fun _ => []⟩
    kind := .Open
    operator := .Normal
    comments := [] }

/-- A one-rule domain: open 08:00–10:00 every day. -/
def morningDomain : TimeDomain := ⟨[morningRule]⟩

/-- A rule matching only day 0, `Normal`, open 12:00–24:00, comment "a". -/
def dayZeroRule : RuleSequence :=
  { day_selector := ⟨fun d => d = 0⟩
    time_selector := ⟨fun _ => [(720, 1440)], fun _ => []⟩
    kind := .Open
    operator := .Normal
    comments := ["a"] }

/-- A rule matching only day 1, `Additional`, open 00:00–12:00, comment "b". -/
def dayOneRule : RuleSequence :=
  { day_selector := ⟨fun d => d = 1⟩
    time_selector := ⟨fun _ => [(0, 720)], fun _ => []⟩
    kind := .Open
    operator := .Additional
    comments := ["b"] }

/-- A two-rule domain whose open run crosses midnight between day 0 (comment
"a") and day 1 (comment "b"). -/
def twoCommentsDomain : TimeDomain := ⟨[dayZeroRule, dayOneRule]⟩

/-- A rule matching every date, `Fallback`, closed 00:00–24:00 — sample
predecessor of a `Normal` rule in a fold. -/
def fallbackClosedRule : RuleSequence :=
  { day_selector := ⟨fun _ => true⟩
    time_selector := ⟨fun _ => [(0, 1440)], fun _ => []⟩
    kind := .Closed
    operator := .Fallback
    comments := [] }

/-! ## Theorems -/

/-! ### Claim C1 — the `Normal` operator replaces unconditionally -/

/-- C1: in `TimeDomain.scheduleFor(date)`, for every date, every ordered rule
list and every rule whose operator is `Normal`, the running fold result is
unconditionally replaced by that rule's contribution, even when that
contribution is "no information": after processing a Normal rule the
accumulated result equals exactly that rule's own contribution for the date,
independent of all earlier rules. -/
theorem c1_normal_replaces_unconditionally (date : Int) (pre : List RuleSequence)
    (r : RuleSequence) (hop : r.operator = .Normal) :
    List.foldl (TimeDomain.schedule_at_step date) none (pre ++ [r]) = r.schedule_at date ∧
    (TimeDomain.mk (pre ++ [r])).schedule_at date =
      (r.schedule_at date).getD Schedule.empty := by
  have h1 : List.foldl (TimeDomain.schedule_at_step date) none (pre ++ [r]) =
      TimeDomain.schedule_at_step date
        (List.foldl (TimeDomain.schedule_at_step date) none pre) r := by
    rw [List.foldl_append]
    rfl
  have h2 : List.foldl (TimeDomain.schedule_at_step date) none (pre ++ [r]) =
      r.schedule_at date := by
    rw [h1]
    unfold TimeDomain.schedule_at_step
    rw [hop]
  exact ⟨h2, by unfold TimeDomain.schedule_at; rw [h2]⟩

/-- Witness for C1 at a concrete fold: an always-matching `Fallback` rule
followed by the `Normal` morning rule on day 0. -/
theorem c1_normal_replaces_unconditionally_witness :
    List.foldl (TimeDomain.schedule_at_step 0) none ([fallbackClosedRule] ++ [morningRule]) =
      morningRule.schedule_at 0 ∧
    (TimeDomain.mk ([fallbackClosedRule] ++ [morningRule])).schedule_at 0 =
      (morningRule.schedule_at 0).getD Schedule.empty :=
  c1_normal_replaces_unconditionally 0 [fallbackClosedRule] morningRule rfl

/-! ### Claim C2 — `DateOffset.apply` weekday snapping -/

/-- C2: the claim states that after the day shift a `Next W` snap moves
forward the minimal number of days to land on weekday `W`.  Evaluating the
code at day 19725 (Wednesday 2024-01-03): `Next Friday` adds 5 days and lands
on day 19730 (Monday 2024-01-08), not on a Friday, although Friday 2024-01-05
(day 19727) is 2 days ahead; `Prev Monday` subtracts 5 days and lands on day
19720 (Friday 2023-12-29), not on a Monday, although Monday 2024-01-01 (day
19723) is 2 days back.  The `Prev` and `Next` diff formulas in the source are
swapped. -/
theorem c2_dateOffset_apply_misses_target_weekday :
    DateOffset.apply ⟨.Next .Fri, 0⟩ 19725 = 19730 ∧
    NaiveDate.weekday 19730 = Weekday.toInt .Mon ∧
    NaiveDate.weekday 19727 = Weekday.toInt .Fri ∧
    DateOffset.apply ⟨.Prev .Mon, 0⟩ 19725 = 19720 ∧
    NaiveDate.weekday 19720 = Weekday.toInt .Fri ∧
    NaiveDate.weekday 19723 = Weekday.toInt .Mon := by
  decide

/-! ### Claim C5 — `Rule.scheduleFor(date)` case analysis -/

/-- C5: for every rule and every date, `Rule.scheduleFor(date)` is the
`addition`-merge of the "today" schedule (when the selector matches `date`)
and the "yesterday overflow" schedule (when the selector matches `date - 1`)
when both exist, whichever exists when only one does, and `none` exactly when
the selector matches neither day. -/
theorem c5_rule_schedule_merges_today_and_yesterday (rs : RuleSequence) (date : Int) :
    rs.schedule_at date =
      (if rs.day_selector.filter date then
        if rs.day_selector.filter (date - 1) then
          some ((Schedule.from_ranges (rs.time_selector.intervals_at date) rs.kind
              rs.comments).addition
            (Schedule.from_ranges (rs.time_selector.intervals_at_next_day (date - 1)) rs.kind
              rs.comments))
        else
          some (Schedule.from_ranges (rs.time_selector.intervals_at date) rs.kind rs.comments)
      else
        if rs.day_selector.filter (date - 1) then
          some (Schedule.from_ranges (rs.time_selector.intervals_at_next_day (date - 1)) rs.kind
            rs.comments)
        else none) ∧
    (rs.schedule_at date = none ↔
      rs.day_selector.filter date = false ∧ rs.day_selector.filter (date - 1) = false) := by
  unfold RuleSequence.schedule_at
  cases h1 : rs.day_selector.filter date <;>
    cases h2 : rs.day_selector.filter (date - 1) <;>
      simp [h1, h2, Option.or]

/-! ### Claim C7 — overflow behaviour of `addMinutes` / `addHours` -/

/-- C7 counterexample: the claim states that `addMinutes` never aborts
fatally, but adding 15360 minutes (a legitimate `i16` offset) to `00:00`
reaches hour 256, and the `unwrap` inside `from_mins_from_midnight`
panics. -/
theorem c7_counterexample_add_minutes_panics :
    (ExtendedTime.mk 0 0).add_minutes 15360 = .panicked := by
  decide

/-- C7 amended: `addHours` indeed never panics — it returns a value or a
recoverable error for every input — and `addMinutes` returns a value or a
recoverable error exactly when the wrapped `i16` sum stays below 15360 minutes
(hour 256); at or above that the hour conversion panics instead of returning
an error. -/
theorem c7_amended_overflow_behaviour (t : ExtendedTime) (hours minutes : Int) :
    t.add_hours hours ≠ .panicked ∧
    (t.add_minutes minutes = .panicked ↔
      15360 ≤ wrap16 ((t.mins_from_midnight : Int) + minutes)) := by
  constructor
  · unfold ExtendedTime.add_hours
    dsimp only
    split <;> simp
  · unfold ExtendedTime.add_minutes ExtendedTime.from_mins_from_midnight
    dsimp only
    by_cases h1 : wrap16 ((t.mins_from_midnight : Int) + minutes) < 0
    · rw [if_pos h1]
      simp only [reduceCtorEq, false_iff]
      omega
    · rw [if_neg h1]
      by_cases h2 : (wrap16 ((t.mins_from_midnight : Int) + minutes)).toNat / 60 ≤ 255
      · rw [if_pos h2]
        dsimp only
        simp only [reduceCtorEq, false_iff]
        omega
      · rw [if_neg h2]
        dsimp only
        simp only [true_iff]
        omega

/-- Witness for the amended C7 at concrete inputs: `23:15 + 3 hours` does not
panic, and `23:15 + 45 minutes` panics exactly when its wrapped sum reaches
15360 (it does not). -/
theorem c7_amended_overflow_behaviour_witness :
    (ExtendedTime.mk 23 15).add_hours 3 ≠ .panicked ∧
    ((ExtendedTime.mk 23 15).add_minutes 45 = .panicked ↔
      15360 ≤ wrap16 (((ExtendedTime.mk 23 15).mins_from_midnight : Int) + 45)) :=
  c7_amended_overflow_behaviour ⟨23, 15⟩ 3 45

/-! ### Claim C9 — the `minute < 60` invariant -/

/-- C9: construction with `minute ≥ 60` is rejected at the point of
construction (`new` panics exactly then), and every producing operation —
`new`, `from_mins_from_midnight`, conversion from a wall-clock time, a
successful `add_minutes`, a successful `add_hours` from a valid input —
yields a value with `minute < 60`. -/
theorem c9_minute_invariant :
    (∀ h m, (ExtendedTime.new h m).isSome ↔ m < 60) ∧
    (∀ h m t, ExtendedTime.new h m = some t → t.minute < 60) ∧
    (∀ m t, ExtendedTime.from_mins_from_midnight m = some t → t.minute < 60) ∧
    (∀ n, (ExtendedTime.fromNaiveTime n).minute < 60) ∧
    (∀ (t : ExtendedTime) (mins : Int) t2, t.add_minutes mins = .ok t2 → t2.minute < 60) ∧
    (∀ (t : ExtendedTime) (hrs : Int) t2, t.minute < 60 → t.add_hours hrs = .ok t2 →
      t2.minute < 60) := by
  refine ⟨?_, ?_, ?_, ?_, ?_, ?_⟩
  · intro h m
    unfold ExtendedTime.new
    split <;> simp <;> omega
  · intro h m t ht
    unfold ExtendedTime.new at ht
    split at ht
    · exact absurd ht (by simp)
    · cases ht
      simpa using by omega
  · intro m t ht
    unfold ExtendedTime.from_mins_from_midnight at ht
    split at ht
    · cases ht
      simp
      omega
    · exact absurd ht (by simp)
  · intro n
    unfold ExtendedTime.fromNaiveTime
    dsimp only
    omega
  · intro t mins t2 ht
    unfold ExtendedTime.add_minutes at ht
    dsimp only at ht
    split at ht
    · exact absurd ht (by simp)
    · unfold ExtendedTime.from_mins_from_midnight at ht
      by_cases hc : (wrap16 ((t.mins_from_midnight : Int) + mins)).toNat / 60 ≤ 255
      · rw [if_pos hc] at ht
        dsimp only at ht
        cases ht
        dsimp only
        omega
      · rw [if_neg hc] at ht
        exact absurd ht (by simp)
  · intro t hrs t2 hm ht
    unfold ExtendedTime.add_hours at ht
    dsimp only at ht
    split at ht
    · cases ht
      exact hm
    · exact absurd ht (by simp)

/-- Witness for C9 at concrete values: a rejected construction, an accepted
construction, a conversion, a successful `add_minutes` and a successful
`add_hours`. -/
theorem c9_minute_invariant_witness :
    ((ExtendedTime.new 10 60).isSome ↔ (60 : Nat) < 60) ∧
    (ExtendedTime.mk 12 45).minute < 60 ∧
    (ExtendedTime.mk 8 55).minute < 60 ∧
    (ExtendedTime.fromNaiveTime 1439).minute < 60 ∧
    (ExtendedTime.mk 10 30).minute < 60 ∧
    (ExtendedTime.mk 26 15).minute < 60 :=
  ⟨c9_minute_invariant.1 10 60,
    c9_minute_invariant.2.1 12 45 ⟨12, 45⟩ (by decide),
    c9_minute_invariant.2.2.1 535 ⟨8, 55⟩ (by decide),
    c9_minute_invariant.2.2.2.1 1439,
    c9_minute_invariant.2.2.2.2.1 ⟨10, 0⟩ 30 ⟨10, 30⟩ (by decide),
    c9_minute_invariant.2.2.2.2.2 ⟨23, 15⟩ 3 ⟨26, 15⟩ (by decide) (by decide)⟩

/-! ### Claim C10 — `addHours` changes only the hour field -/

/-- C10: for every clock value and signed hour offset, a successful
`add_hours` leaves the minute component unchanged. -/
theorem c10_add_hours_preserves_minute (t : ExtendedTime) (hours : Int)
    (t2 : ExtendedTime) (h : t.add_hours hours = .ok t2) : t2.minute = t.minute := by
  unfold ExtendedTime.add_hours at h
  dsimp only at h
  split at h
  · cases h
    rfl
  · exact absurd h (by simp)

/-- Witness for C10: `23:15 + 3 hours = 26:15` keeps the minute 15. -/
theorem c10_add_hours_preserves_minute_witness :
    (ExtendedTime.mk 26 15).minute = (ExtendedTime.mk 23 15).minute :=
  c10_add_hours_preserves_minute ⟨23, 15⟩ 3 ⟨26, 15⟩ (by decide)

/-! ### Iterator helper lemmas -/

/-- `lt` on `NaiveDateTime` is irreflexive. -/
theorem naiveDateTime_lt_irrefl (a : NaiveDateTime) : NaiveDateTime.lt a a = false := by
  unfold NaiveDateTime.lt
  simp

/-- `lt` on `NaiveDateTime` is asymmetric. -/
theorem naiveDateTime_lt_asymm (a b : NaiveDateTime) (h : NaiveDateTime.lt a b = true) :
    NaiveDateTime.lt b a = false := by
  unfold NaiveDateTime.lt at *
  rcases a with ⟨ad, atime⟩
  rcases b with ⟨bd, btime⟩
  simp at h ⊢
  omega

/-- Inversion of a successful `next()`: the current schedule is non-empty, the
yielded interval copies the kind and comments of its head range, and the
successor state is the result of `consume_until_next_kind`. -/
theorem next_item_inv (s : IterState) (r : DateTimeRange) (s' : IterState)
    (h : s.next = .item r s') :
    ∃ tr rest, s.curr_schedule = tr :: rest ∧ r.kind = tr.kind ∧ r.comments = tr.comments ∧
      s' = IterState.consume_until_next_kind tr.kind s := by
  unfold IterState.next at h
  split at h
  · exact absurd h (by simp)
  next tr tail heq =>
    split at h
    · exact absurd h (by simp)
    next st hconv =>
      dsimp only at h
      split at h
      · exact absurd h (by simp)
      next et hconv2 =>
        injection h with h1 h2
        refine ⟨tr, tail, heq, ?_, ?_, h2.symm⟩
        · rw [← h1]
        · rw [← h1]

/-- `consume_until_next_kind` on an exhausted schedule returns the state
unchanged. -/
theorem consume_eq_of_nil (k : RuleKind) (s : IterState) (h : s.curr_schedule = []) :
    IterState.consume_until_next_kind k s = s := by
  rw [IterState.consume_until_next_kind.eq_def]
  split
  · rfl
  next tr2 rest2 hsch =>
    rw [h] at hsch
    exact absurd hsch (by simp)

/-- `consume_until_next_kind` stops at a head range of a different kind. -/
theorem consume_eq_of_stop (k : RuleKind) (s : IterState) (tr : TimeRange)
    (rest : List TimeRange) (h : s.curr_schedule = tr :: rest) (hk : ¬ tr.kind = k) :
    IterState.consume_until_next_kind k s = s := by
  rw [IterState.consume_until_next_kind.eq_def]
  split
  · rfl
  next tr2 rest2 hsch =>
    rw [h] at hsch
    injection hsch with e1 e2
    subst e1
    rw [if_neg hk]

/-- `consume_until_next_kind` drops a head range of the current kind when more
ranges remain on the same day. -/
theorem consume_eq_of_keep (k : RuleKind) (s : IterState) (tr : TimeRange)
    (rest : List TimeRange) (h : s.curr_schedule = tr :: rest) (hk : tr.kind = k)
    (hne : rest.isEmpty = false) :
    IterState.consume_until_next_kind k s =
      IterState.consume_until_next_kind k
        { s with curr_schedule := rest } := by
  conv_lhs => rw [IterState.consume_until_next_kind.eq_def]
  split
  next hsch =>
    rw [h] at hsch
    exact absurd hsch (by simp)
  next tr2 rest2 hsch =>
    rw [h] at hsch
    injection hsch with e1 e2
    subst e1
    subst e2
    rw [if_pos hk, if_neg (by rw [hne]; simp)]

/-- `consume_until_next_kind` exhausts the day and refills from the next date
when it is still within the date bound. -/
theorem consume_eq_of_refill (k : RuleKind) (s : IterState) (tr : TimeRange)
    (h : s.curr_schedule = [tr]) (hk : tr.kind = k)
    (hbound : s.curr_date + 1 ≤ maxDate) :
    IterState.consume_until_next_kind k s =
      IterState.consume_until_next_kind k
        { s with
          curr_date := s.curr_date + 1
          curr_schedule := (s.time_domain.schedule_at (s.curr_date + 1)).into_iter_filled } := by
  conv_lhs => rw [IterState.consume_until_next_kind.eq_def]
  split
  next hsch =>
    rw [h] at hsch
    exact absurd hsch (by simp)
  next tr2 rest2 hsch =>
    rw [h] at hsch
    injection hsch with e1 e2
    subst e1
    subst e2
    rw [if_pos hk, if_pos (by rfl), dif_pos hbound]

/-- `consume_until_next_kind` exhausts the day and leaves an empty schedule
when the next date crosses the date bound. -/
theorem consume_eq_of_exhaust (k : RuleKind) (s : IterState) (tr : TimeRange)
    (h : s.curr_schedule = [tr]) (hk : tr.kind = k)
    (hbound : ¬ s.curr_date + 1 ≤ maxDate) :
    IterState.consume_until_next_kind k s =
      { s with curr_date := s.curr_date + 1, curr_schedule := [] } := by
  conv_lhs => rw [IterState.consume_until_next_kind.eq_def]
  split
  next hsch =>
    rw [h] at hsch
    exact absurd hsch (by simp)
  next tr2 rest2 hsch =>
    rw [h] at hsch
    injection hsch with e1 e2
    subst e1
    subst e2
    rw [if_pos hk, if_pos (by rfl), dif_neg hbound]

/-- After `consume_until_next_kind k`, the head of the remaining schedule (when
there is one) no longer has kind `k` — the stopping condition of the loop. -/
theorem consume_head_kind (k : RuleKind) (s : IterState) (tr : TimeRange)
    (rest : List TimeRange)
    (h : (IterState.consume_until_next_kind k s).curr_schedule = tr :: rest) :
    ¬ tr.kind = k := by
  revert h
  induction s using IterState.consume_until_next_kind.induct k with
  | case1 x hsch =>
    intro h
    rw [consume_eq_of_nil k x hsch, hsch] at h
    exact absurd h (by simp)
  | case2 x tr1 rest1 hsch hkind hempty hbound ih =>
    intro h
    have hrest : rest1 = [] := by
      cases rest1
      · rfl
      · exact absurd hempty (by simp)
    subst hrest
    rw [consume_eq_of_refill k x tr1 hsch hkind hbound] at h
    exact ih h
  | case3 x tr1 rest1 hsch hkind hempty hbound =>
    intro h
    have hrest : rest1 = [] := by
      cases rest1
      · rfl
      · exact absurd hempty (by simp)
    subst hrest
    rw [consume_eq_of_exhaust k x tr1 hsch hkind hbound] at h
    exact absurd h (by simp)
  | case4 x tr1 rest1 hsch hkind hempty ih =>
    intro h
    rw [consume_eq_of_keep k x tr1 rest1 hsch hkind (by simpa using hempty)] at h
    exact ih h
  | case5 x tr1 rest1 hsch hkind =>
    intro h
    rw [consume_eq_of_stop k x tr1 rest1 hsch hkind, hsch] at h
    injection h with e1 e2
    subst e1
    exact hkind

/-- Evaluation of the first `consume` run on the morning domain. -/
theorem morning_consume1 :
    IterState.consume_until_next_kind .Open
      ⟨morningDomain, 0, [⟨480, 600, .Open, []⟩, ⟨600, 1440, .Unknown, []⟩]⟩ =
      ⟨morningDomain, 0, [⟨600, 1440, .Unknown, []⟩]⟩ :=
  (consume_eq_of_keep .Open _ ⟨480, 600, .Open, []⟩ [⟨600, 1440, .Unknown, []⟩]
      rfl rfl rfl).trans
    (consume_eq_of_stop .Open _ ⟨600, 1440, .Unknown, []⟩ [] rfl (by decide))

/-- Evaluation of the second `consume` run on the morning domain: it crosses
midnight into day 1. -/
theorem morning_consume2 :
    IterState.consume_until_next_kind .Unknown
      ⟨morningDomain, 0, [⟨600, 1440, .Unknown, []⟩]⟩ =
      ⟨morningDomain, 1, [⟨480, 600, .Open, []⟩, ⟨600, 1440, .Unknown, []⟩]⟩ :=
  (consume_eq_of_refill .Unknown _ ⟨600, 1440, .Unknown, []⟩ rfl rfl (by decide)).trans
    ((consume_eq_of_keep .Unknown _ ⟨0, 480, .Unknown, []⟩
        [⟨480, 600, .Open, []⟩, ⟨600, 1440, .Unknown, []⟩] rfl rfl rfl).trans
      (consume_eq_of_stop .Unknown _ ⟨480, 600, .Open, []⟩ [⟨600, 1440, .Unknown, []⟩]
        rfl (by decide)))

/-- Evaluation of the first `consume` run on the two-comment domain: it
crosses midnight into day 1 and absorbs the `["b"]` range. -/
theorem twoComments_consume1 :
    IterState.consume_until_next_kind .Open
      ⟨twoCommentsDomain, 0, [⟨720, 1440, .Open, ["a"]⟩]⟩ =
      ⟨twoCommentsDomain, 1, [⟨720, 1440, .Unknown, []⟩]⟩ :=
  (consume_eq_of_refill .Open _ ⟨720, 1440, .Open, ["a"]⟩ rfl rfl (by decide)).trans
    ((consume_eq_of_keep .Open _ ⟨0, 720, .Open, ["b"]⟩ [⟨720, 1440, .Unknown, []⟩]
        rfl rfl rfl).trans
      (consume_eq_of_stop .Open _ ⟨720, 1440, .Unknown, []⟩ [] rfl (by decide)))

/-- Symbolic evaluation of one `next()` call from its `consume` run: when the
current schedule has head `tr`, the consumed state `s2` has head `tr2`, and
both starts convert to wall-clock times, `next()` yields the interval from
`tr.start` on the old cursor date to `tr2.start` on the new one, with `tr`'s
kind and comments. -/
theorem next_eq_of_consume (s : IterState) (tr : TimeRange) (rest : List TimeRange)
    (hsch : s.curr_schedule = tr :: rest) (hstart : tr.start < minutesPerDay)
    (s2 : IterState) (hcons : IterState.consume_until_next_kind tr.kind s = s2)
    (tr2 : TimeRange) (rest2 : List TimeRange) (hsch2 : s2.curr_schedule = tr2 :: rest2)
    (hend : tr2.start < minutesPerDay) :
    s.next = .item ⟨⟨s.curr_date, tr.start⟩, ⟨s2.curr_date, tr2.start⟩, tr.kind, tr.comments⟩ s2 := by
  unfold IterState.next
  rw [hsch]
  dsimp only
  unfold tryIntoNaiveTime
  rw [if_pos hstart, hcons, hsch2]
  dsimp only
  rw [if_pos hend]

/-- The first `next()` on the morning domain starting 09:00 of day 0: the open
interval 08:00–10:00 of day 0. -/
theorem morning_next1 :
    (IterState.new morningDomain ⟨0, 540⟩).next =
      .item ⟨⟨0, 480⟩, ⟨0, 600⟩, .Open, []⟩ ⟨morningDomain, 0, [⟨600, 1440, .Unknown, []⟩]⟩ :=
  next_eq_of_consume (IterState.new morningDomain ⟨0, 540⟩) ⟨480, 600, .Open, []⟩
    [⟨600, 1440, .Unknown, []⟩] rfl (by decide) ⟨morningDomain, 0, [⟨600, 1440, .Unknown, []⟩]⟩
    morning_consume1 ⟨600, 1440, .Unknown, []⟩ [] rfl (by decide)

/-- The second `next()` on the morning domain: the unknown run from 10:00 of
day 0 to 08:00 of day 1. -/
theorem morning_next2 :
    (IterState.mk morningDomain 0 [⟨600, 1440, .Unknown, []⟩]).next =
      .item ⟨⟨0, 600⟩, ⟨1, 480⟩, .Unknown, []⟩
        ⟨morningDomain, 1, [⟨480, 600, .Open, []⟩, ⟨600, 1440, .Unknown, []⟩]⟩ :=
  next_eq_of_consume (IterState.mk morningDomain 0 [⟨600, 1440, .Unknown, []⟩])
    ⟨600, 1440, .Unknown, []⟩ [] rfl (by decide)
    ⟨morningDomain, 1, [⟨480, 600, .Open, []⟩, ⟨600, 1440, .Unknown, []⟩]⟩ morning_consume2
    ⟨480, 600, .Open, []⟩ [⟨600, 1440, .Unknown, []⟩] rfl (by decide)

/-- The first `next()` on the two-comment domain starting 13:00 of day 0: one
open run from 12:00 of day 0 to 12:00 of day 1, carrying only the comment of
its first sub-interval. -/
theorem twoComments_next1 :
    (IterState.new twoCommentsDomain ⟨0, 780⟩).next =
      .item ⟨⟨0, 720⟩, ⟨1, 720⟩, .Open, ["a"]⟩
        ⟨twoCommentsDomain, 1, [⟨720, 1440, .Unknown, []⟩]⟩ :=
  next_eq_of_consume (IterState.new twoCommentsDomain ⟨0, 780⟩) ⟨720, 1440, .Open, ["a"]⟩
    [] rfl (by decide) ⟨twoCommentsDomain, 1, [⟨720, 1440, .Unknown, []⟩]⟩
    twoComments_consume1 ⟨720, 1440, .Unknown, []⟩ [] rfl (by decide)

/-! ### Claim C3 — `intervalsBetween(t, t)` -/

/-- C3 counterexample: the claim states `intervalsBetween(t, t)` produces no
intervals at all, but on the morning domain with `t` = 09:00 of day 0 (an
instant strictly inside the 08:00–10:00 open interval) the very first step of
`intervals(t, t)` yields an interval — the degenerate `[t, t)` open range. -/
theorem c3_counterexample_interval_emitted :
    (TimeDomain.intervalsStep ⟨0, 540⟩ ⟨0, 540⟩
        (IterState.new morningDomain ⟨0, 540⟩)).itemRange =
      some ⟨⟨0, 540⟩, ⟨0, 540⟩, .Open, []⟩ := by
  unfold TimeDomain.intervalsStep
  rw [morning_next1]
  simp [NaiveDateTime.lt, NaiveDateTime.max, NaiveDateTime.min, Step.itemRange]

/-- C3 amended: `intervalsBetween(t, t)` never yields an interval covering any
instant — every interval it emits is degenerate, starting exactly at `t` with
its end not after `t` — but the stream is not always empty: it emits one such
degenerate interval when `t` lies strictly inside an interval of the
underlying stream. -/
theorem c3_amended_only_degenerate_intervals (fromT : NaiveDateTime) (s : IterState)
    (r : DateTimeRange) (s' : IterState)
    (h : TimeDomain.intervalsStep fromT fromT s = .item r s') :
    r.start = fromT ∧ NaiveDateTime.lt fromT r.stop = false := by
  unfold TimeDomain.intervalsStep at h
  split at h
  next dtr s2 heq =>
    split at h
    next hlt =>
      injection h with h1 h2
      constructor
      · rw [← h1]
        show NaiveDateTime.max dtr.start fromT = fromT
        unfold NaiveDateTime.max
        rw [naiveDateTime_lt_asymm _ _ hlt]
        simp
      · rw [← h1]
        show NaiveDateTime.lt fromT (NaiveDateTime.min dtr.stop fromT) = false
        unfold NaiveDateTime.min
        by_cases hstop : NaiveDateTime.lt fromT dtr.stop
        · rw [if_pos hstop]
          exact naiveDateTime_lt_irrefl fromT
        · rw [if_neg hstop]
          exact Bool.eq_false_iff.mpr hstop
    next hlt =>
      exact absurd h (by simp)
  next x hno =>
    exact absurd h (hno r s')

/-- Witness for the amended C3 at the concrete degenerate emission of
`c3_counterexample_interval_emitted`. -/
theorem c3_amended_only_degenerate_intervals_witness :
    (DateTimeRange.mk ⟨0, 540⟩ ⟨0, 540⟩ .Open []).start = (⟨0, 540⟩ : NaiveDateTime) ∧
    NaiveDateTime.lt ⟨0, 540⟩ (DateTimeRange.mk ⟨0, 540⟩ ⟨0, 540⟩ .Open []).stop = false :=
  c3_amended_only_degenerate_intervals ⟨0, 540⟩ (IterState.new morningDomain ⟨0, 540⟩)
    ⟨⟨0, 540⟩, ⟨0, 540⟩, .Open, []⟩ ⟨morningDomain, 0, [⟨600, 1440, .Unknown, []⟩]⟩
    (by
      unfold TimeDomain.intervalsStep
      rw [morning_next1]
      simp [NaiveDateTime.lt, NaiveDateTime.max, NaiveDateTime.min])

/-! ### Claim C4 — consecutive intervals have different states -/

/-- C4: any two consecutively emitted intervals of the time-domain iterator
have different states. -/
theorem c4_consecutive_intervals_differ (s : IterState) (r r2 : DateTimeRange)
    (s' s2 : IterState) (h1 : s.next = .item r s') (h2 : s'.next = .item r2 s2) :
    r2.kind ≠ r.kind := by
  obtain ⟨tr, tail, hsch, hk, hc, hs⟩ := next_item_inv s r s' h1
  obtain ⟨tr2, tail2, hsch2, hk2, hc2, hs2⟩ := next_item_inv s' r2 s2 h2
  have hhead : (IterState.consume_until_next_kind tr.kind s).curr_schedule = tr2 :: tail2 := by
    rw [← hs]
    exact hsch2
  have hne := consume_head_kind tr.kind s tr2 tail2 hhead
  rw [hk2, hk]
  exact hne

/-- Witness for C4: the first two intervals emitted on the morning domain are
Open then Unknown. -/
theorem c4_consecutive_intervals_differ_witness :
    (DateTimeRange.mk ⟨0, 600⟩ ⟨1, 480⟩ .Unknown []).kind ≠
      (DateTimeRange.mk ⟨0, 480⟩ ⟨0, 600⟩ .Open []).kind :=
  c4_consecutive_intervals_differ (IterState.new morningDomain ⟨0, 540⟩) _ _ _ _
    morning_next1 morning_next2

/-! ### Claim C6 — `nextChange` and `stateAt` from the first interval -/

/-- C6: `nextChange(t)` is the end instant of the first produced interval, and
`t` itself when the stream is immediately empty; `stateAt(t)` is the state of
the first produced interval, and Unknown when the stream is immediately
empty. -/
theorem c6_next_change_and_state_from_first_interval (td : TimeDomain) (t : NaiveDateTime) :
    ((td.iter_from t).next = .done → td.next_change t = some t ∧ td.state t = some .Unknown) ∧
    (∀ r s', (td.iter_from t).next = .item r s' →
      td.next_change t = some r.stop ∧ td.state t = some r.kind) := by
  constructor
  · intro h
    unfold TimeDomain.next_change TimeDomain.state
    rw [h]
    exact ⟨rfl, rfl⟩
  · intro r s' h
    unfold TimeDomain.next_change TimeDomain.state
    rw [h]
    exact ⟨rfl, rfl⟩

/-- Witness for C6 on the morning domain at 09:00 of day 0: the next change is
10:00 and the state is Open. -/
theorem c6_next_change_and_state_witness :
    morningDomain.next_change ⟨0, 540⟩ = some ⟨0, 600⟩ ∧
    morningDomain.state ⟨0, 540⟩ = some .Open :=
  (c6_next_change_and_state_from_first_interval morningDomain ⟨0, 540⟩).2 _ _ morning_next1

/-! ### Claim C8 — comments of a merged run -/

/-- C8 counterexample: the claim states every emitted interval carries the
sorted union of the annotations over the whole merged run; on the two-comment
domain the first emitted interval spans 12:00 of day 0 to 12:00 of day 1 —
absorbing day 1's 00:00–12:00 range, whose comments are `["b"]` — yet carries
only `["a"]`, not the union `["a", "b"]`. -/
theorem c8_counterexample_union_comment_dropped :
    ((IterState.new twoCommentsDomain ⟨0, 780⟩).next).itemRange =
      some ⟨⟨0, 720⟩, ⟨1, 720⟩, .Open, ["a"]⟩ ∧
    twoCommentsDomain.schedule_at 1 = [⟨0, 720, .Open, ["b"]⟩] ∧
    mergeComments ["a"] ["b"] = ["a", "b"] ∧
    (["a"] : List String) ≠ ["a", "b"] := by
  refine ⟨?_, by rfl, by decide, by decide⟩
  rw [twoComments_next1]
  rfl

/-- C8 amended: every emitted interval carries exactly the comments (and kind)
of the first sub-interval of its merged run — the head of the schedule when
emission starts — not the union over all merged sub-intervals. -/
theorem c8_amended_comments_from_first_range (s : IterState) (r : DateTimeRange)
    (s' : IterState) (h : s.next = .item r s') :
    ∃ tr rest, s.curr_schedule = tr :: rest ∧ r.comments = tr.comments ∧ r.kind = tr.kind := by
  obtain ⟨tr, rest, hsch, hk, hc, _⟩ := next_item_inv s r s' h
  exact ⟨tr, rest, hsch, hc, hk⟩

/-- Witness for the amended C8 at the first emission of the two-comment
domain. -/
theorem c8_amended_comments_from_first_range_witness :
    ∃ tr rest, (IterState.new twoCommentsDomain ⟨0, 780⟩).curr_schedule = tr :: rest ∧
      (DateTimeRange.mk ⟨0, 720⟩ ⟨1, 720⟩ .Open ["a"]).comments = tr.comments ∧
      (DateTimeRange.mk ⟨0, 720⟩ ⟨1, 720⟩ .Open ["a"]).kind = tr.kind :=
  c8_amended_comments_from_first_range (IterState.new twoCommentsDomain ⟨0, 780⟩) _ _
    twoComments_next1

end OpeningHours
